import Mathlib

/-!
Shallow embedding of the plarix-action LLM cost-reporting core.

The repository contains three successive iterations of the same Go program
concatenated in its source; per the specification only the final, three-mode
(measured / configured-estimate / heuristic-only) iteration is authoritative,
and every definition below is translated from that final iteration
(`priceFor`, `computeEstimate`, `loadConfig`, `loadMeasuredUsage`,
`buildReport` and its helpers).

Modelling conventions:
- Go `float64` values (prices, costs) are embedded as `ℚ` with exact
  arithmetic; Go `int` as `ℤ` (unbounded, overflow is out of scope here).
- `strings.EqualFold` / `strings.ToLower` are modelled as ASCII case
  folding.
- JSON parsing of a measured-usage line is abstracted: a line of the
  stream is either blank, malformed (unmarshal error), or a well-formed
  record; the Go code branches on exactly these three outcomes.
- Go map iteration order is unspecified; where the final report iterates a
  map (`mergeModelCounts`, the models-used lines) the iteration sequence is
  treated explicitly: definitions take the iteration sequence as a list,
  and the canonical embedding uses first-insertion order while theorems
  about order quantify over arbitrary valid iteration orders.
-/

/-- ASCII lower-casing of one character (model of Go case folding). -/
def asciiLowerChar (c : Char) : Char :=
  if 'A' ≤ c ∧ c ≤ 'Z' then Char.ofNat (c.toNat + 32) else c

/-- Model of Go `strings.ToLower` (ASCII range). -/
def strToLower (s : String) : String :=
  ⟨s.data.map asciiLowerChar⟩

/-- Model of Go `strings.EqualFold` (ASCII case-insensitive equality). -/
def eqFold (a b : String) : Bool :=
  strToLower a == strToLower b

/-- `ModelPrice` from the source: one pricing-catalog entry, per 1M tokens. -/
structure ModelPrice where
  provider : String
  name : String
  inputPerMillion : ℚ
  outputPerMillion : ℚ
deriving DecidableEq, Repr

/-- `PricingFile` from the source: the baked-in pricing catalog. -/
structure PricingFile where
  lastUpdated : String
  sources : List String
  models : List ModelPrice
deriving DecidableEq, Repr

/-- `Assumptions` from the source: the configured usage profile. -/
structure Assumptions where
  requestsPerDay : ℤ
  avgInputTokens : ℤ
  avgOutputTokens : ℤ
  provider : String
  model : String
deriving DecidableEq, Repr

/-- `costPair` from the source. -/
structure costPair where
  perRequest : ℚ
  monthly : ℚ
deriving DecidableEq, Repr

/-- The linear scan inside `priceFor` (final iteration): return the first
entry matching provider and model case-insensitively. -/
def priceForLoop (provider model : String) : List ModelPrice → Option ModelPrice
  | [] => none
  | m :: rest =>
    if eqFold m.provider provider && eqFold m.name model then some m
    else priceForLoop provider model rest

/-- `priceFor` from the final iteration: exact case-insensitive
(provider, model) lookup; when no entry matches, a zero-priced placeholder
carrying the lower-cased requested provider and the requested model is
returned with `found = false`.  (The same-provider and first-entry
fallbacks exist only in the superseded earlier iterations.) -/
def priceFor (pricing : PricingFile) (provider model : String) : ModelPrice × Bool :=
  let p := strToLower provider
  match priceForLoop p model pricing.models with
  | some m => (m, true)
  | none =>
    ({ provider := p, name := model, inputPerMillion := 0, outputPerMillion := 0 }, false)

/-- `computeEstimate` from the source: per-request and monthly cost from
the assumptions and the resolved price. -/
def computeEstimate (a : Assumptions) (pricing : PricingFile) (model : String) :
    costPair × Bool :=
  let r := priceFor pricing a.provider model
  let perRequest :=
    ((a.avgInputTokens : ℚ) * r.1.inputPerMillion
      + (a.avgOutputTokens : ℚ) * r.1.outputPerMillion) / 1000000
  let monthly := perRequest * (a.requestsPerDay : ℚ) * 30
  ({ perRequest := perRequest, monthly := monthly }, r.2)

-- A small concrete catalog taken from the repository's pricing generator
-- (`cmd/update-pricing`), used for concrete evaluations.

/-- The openai/gpt-4o entry of the repository's generated catalog. -/
def exGpt4o : ModelPrice :=
  { provider := "openai", name := "gpt-4o", inputPerMillion := 5, outputPerMillion := 15 }

/-- The openai/gpt-4o-mini entry of the repository's generated catalog. -/
def exGpt4oMini : ModelPrice :=
  { provider := "openai", name := "gpt-4o-mini"
    inputPerMillion := 15 / 100, outputPerMillion := 60 / 100 }

/-- A catalog holding only openai entries, as in spec Example 5. -/
def exCatalogOpenai : PricingFile :=
  { lastUpdated := "2025-01-01"
    sources := ["https://openai.com/pricing"]
    models := [exGpt4o, exGpt4oMini] }

/-- `MeasuredUsage` from the source: one observed API call parsed from a
JSONL line. -/
structure MeasuredUsage where
  provider : String
  model : String
  inputTokens : ℤ
  outputTokens : ℤ
  cachedInputTokens : ℤ
  timestamp : String
deriving DecidableEq, Repr

/-- One line of a measured-usage stream, classified the way the Go reader
does: blank after trimming, failing to unmarshal, or a well-formed record.
(The JSON decoding itself is abstracted into this classification.) -/
inductive UsageLine where
  | blank
  | malformed
  | record (u : MeasuredUsage)
deriving DecidableEq, Repr

/-- `MeasuredSummary` from the source.  The Go `map[string]int` of per-model
call counts is represented as an association list kept in first-insertion
order (the map's key/value content; iteration order is treated separately). -/
structure MeasuredSummary where
  totalInputTokens : ℤ
  totalOutputTokens : ℤ
  totalCost : ℚ
  callCount : ℤ
  models : List (String × ℕ)
deriving DecidableEq, Repr

/-- `summary.Models[u.Model]++` on the association-list representation. -/
def incrModel : List (String × ℕ) → String → List (String × ℕ)
  | [], m => [(m, 1)]
  | (k, c) :: rest, m =>
    if k = m then (k, c + 1) :: rest else (k, c) :: incrModel rest m

/-- The fresh summary `&MeasuredSummary{Models: make(map[string]int)}`. -/
def emptySummary : MeasuredSummary :=
  { totalInputTokens := 0, totalOutputTokens := 0, totalCost := 0
    callCount := 0, models := [] }

/-- Loop body of `loadMeasuredUsage` for one successfully parsed record:
accumulate tokens, call count, per-model count, and the record's own cost
(resolved with the record's provider/model).  `cachedInputTokens` and
`timestamp` are not read. -/
def aggregateStep (pricing : PricingFile) (s : MeasuredSummary) (u : MeasuredUsage) :
    MeasuredSummary :=
  let price := (priceFor pricing u.provider u.model).1
  let callCost := ((u.inputTokens : ℚ) * price.inputPerMillion
      + (u.outputTokens : ℚ) * price.outputPerMillion) / 1000000
  { totalInputTokens := s.totalInputTokens + u.inputTokens
    totalOutputTokens := s.totalOutputTokens + u.outputTokens
    totalCost := s.totalCost + callCost
    callCount := s.callCount + 1
    models := incrModel s.models u.model }

/-- One scanner iteration of `loadMeasuredUsage`: blank and malformed lines
are skipped, records are aggregated. -/
def lineStep (pricing : PricingFile) (s : MeasuredSummary) : UsageLine → MeasuredSummary
  | UsageLine.blank => s
  | UsageLine.malformed => s
  | UsageLine.record u => aggregateStep pricing s u

/-- `loadMeasuredUsage` from the source, over an already-opened stream of
lines: fold the scanner loop, then return absent when no call was counted. -/
def loadMeasuredUsage (pricing : PricingFile) (lines : List UsageLine) :
    Option MeasuredSummary :=
  let summary := lines.foldl (lineStep pricing) emptySummary
  if summary.callCount = 0 then none else some summary

/-- Whether a stream line is a well-formed, non-blank record. -/
def isRecordLine : UsageLine → Bool
  | UsageLine.record _ => true
  | _ => false

/-- The fields of a measured record that the aggregator reads — everything
except `cachedInputTokens` and `timestamp`. -/
def usageObs (u v : MeasuredUsage) : Prop :=
  u.provider = v.provider ∧ u.model = v.model
    ∧ u.inputTokens = v.inputTokens ∧ u.outputTokens = v.outputTokens

/-- Two stream lines that agree on everything the aggregator reads. -/
def lineObs : UsageLine → UsageLine → Prop
  | UsageLine.blank, UsageLine.blank => True
  | UsageLine.malformed, UsageLine.malformed => True
  | UsageLine.record u, UsageLine.record v => usageObs u v
  | _, _ => False

/-- The assumptions record of spec Example 1. -/
def exAssumptions : Assumptions :=
  { requestsPerDay := 10000, avgInputTokens := 800, avgOutputTokens := 400
    provider := "openai", model := "gpt-4o-mini" }

/-- The delta-percent computation inside `buildMeasuredReport`:
`deltaPercent := 0; if base.TotalCost > 0 { deltaPercent = delta / base.TotalCost * 100 }`. -/
def deltaPercentOf (base head : MeasuredSummary) : ℚ :=
  let delta := head.totalCost - base.totalCost
  if base.totalCost > 0 then delta / base.totalCost * 100 else 0

/-- Model of Go's float-to-int conversion `int(x)`: truncation toward zero. -/
def goTrunc (q : ℚ) : ℤ := q.num.tdiv (q.den : ℤ)

/-- The filled-unit count of the `bar` trend indicator, exactly as in the
source: truncate `(value / max) * 22`, floor at 1 when the value is
positive, cap at the width. -/
def barFilled (value maxv : ℚ) : ℤ :=
  let width : ℤ := 22
  let filled := goTrunc (value / maxv * 22)
  let filled2 := if filled < 1 ∧ 0 < value then 1 else filled
  if filled2 > width then width else filled2

/-- `bar` from the source: `filled` block characters followed by
`width − filled` dot characters. -/
def bar (value maxv : ℚ) : String :=
  ⟨List.replicate (barFilled value maxv).toNat '█'
    ++ List.replicate ((22 - barFilled value maxv)).toNat '·'⟩

/-- One iteration of the dedup loops inside `mergeModelCounts`: the state is
(seen set, result list); an unseen model is appended to the result.  (The Go
seen set is a `map[string]bool`; only membership matters, so it is carried
as a list.) -/
def mergeStep (st : List String × List String) (m : String) : List String × List String :=
  if m ∈ st.1 then st else (m :: st.1, st.2 ++ [m])

/-- `mergeModelCounts` from the source: iterate the before-side map's keys,
then the after-side map's keys, with one shared seen set.  `a` and `b` are
the two maps' iteration sequences (Go leaves their order unspecified). -/
def mergeModelCounts (a b : List String) : List String :=
  (b.foldl mergeStep (a.foldl mergeStep ([], []))).2

/-- A sequence is a possible Go map iteration order for the per-model count
map exactly when it visits each key once, in any order. -/
def validMapIterOrder (models : List (String × ℕ)) (order : List String) : Prop :=
  List.Perm order (models.map Prod.fst)

/-- A two-record before-side stream whose models are first seen in the
order gpt-4o-mini, gpt-4o. -/
def exBaseLines : List UsageLine :=
  [UsageLine.record
    { provider := "openai", model := "gpt-4o-mini", inputTokens := 10,
      outputTokens := 5, cachedInputTokens := 0, timestamp := "" },
   UsageLine.record
    { provider := "openai", model := "gpt-4o", inputTokens := 20,
      outputTokens := 10, cachedInputTokens := 0, timestamp := "" }]

/-- A one-record after-side stream using only gpt-4o. -/
def exHeadLines : List UsageLine :=
  [UsageLine.record
    { provider := "openai", model := "gpt-4o", inputTokens := 20,
      outputTokens := 10, cachedInputTokens := 0, timestamp := "" }]

/-- ASCII whitespace, the model of Go `unicode.IsSpace` used here. -/
def isSpaceChar (c : Char) : Bool := c == ' ' || c == '\t' || c == '\n' || c == '\r'

/-- Model of Go `strings.TrimSpace` (ASCII whitespace). -/
def trimSpace (s : String) : String :=
  ⟨((s.data.dropWhile isSpaceChar).reverse.dropWhile isSpaceChar).reverse⟩

/-- Model of Go `strings.HasPrefix`. -/
def strHasPre (s pre : String) : Bool := pre.data.isPrefixOf s.data

/-- Model of Go `strings.HasSuffix`. -/
def strHasSuf (s suf : String) : Bool := suf.data.reverse.isPrefixOf s.data.reverse

/-- Model of Go `strings.TrimSuffix(line, ":")` once the suffix is known to
be present: drop the final character. -/
def dropLastChar (s : String) : String := ⟨s.data.dropLast⟩

/-- Model of Go `strings.SplitN(s, ":", 2)`: split at the first colon;
without a colon the result is the single-element list. -/
def splitN2Colon (s : String) : List String :=
  let pre := s.data.takeWhile (fun c => c != ':')
  if pre.length = s.data.length then [s]
  else [⟨pre⟩, ⟨s.data.drop (pre.length + 1)⟩]

/-- Whether a character belongs to the cutset of `strings.Trim(s, "\"'")`. -/
def isQuoteChar (c : Char) : Bool := c == '"' || c == '\''

/-- Model of Go `strings.Trim(s, "\"'")`: strip leading and trailing quote
characters. -/
def trimQuotes (s : String) : String :=
  ⟨((s.data.dropWhile isQuoteChar).reverse.dropWhile isQuoteChar).reverse⟩

/-- The digits phase of Go `strconv.Atoi`: all-digit, non-empty input. -/
def atoiDigits (ds : List Char) : Option ℕ :=
  if ds ≠ [] ∧ ds.all Char.isDigit then
    some (ds.foldl (fun n c => n * 10 + (c.toNat - '0'.toNat)) 0)
  else none

/-- Model of Go `strconv.Atoi`: optional sign then digits; anything else is
an error (modelled unbounded — integer overflow is out of scope). -/
def goAtoi (s : String) : Option ℤ :=
  match s.data with
  | '+' :: ds => (atoiDigits ds).map (fun n => (n : ℤ))
  | '-' :: ds => (atoiDigits ds).map (fun n => -(n : ℤ))
  | ds => (atoiDigits ds).map (fun n => (n : ℤ))

/-- The hard-coded default assumptions of `loadConfig`. -/
def defaultAssumptions : Assumptions :=
  { requestsPerDay := 10000, avgInputTokens := 800, avgOutputTokens := 400
    provider := "openai", model := "gpt-4o-mini" }

/-- `Config` from the source: it wraps the assumptions. -/
structure Config where
  assumptions : Assumptions
deriving DecidableEq, Repr

/-- The switch statement of `loadConfig`: apply one recognised key/value
assignment to the assumptions (numeric keys only on successful Atoi). -/
def applyConfigKV (key val : String) (a : Assumptions) : Assumptions :=
  if key = "requests_per_day" then
    match goAtoi val with
    | some v => { a with requestsPerDay := v }
    | none => a
  else if key = "avg_input_tokens" then
    match goAtoi val with
    | some v => { a with avgInputTokens := v }
    | none => a
  else if key = "avg_output_tokens" then
    match goAtoi val with
    | some v => { a with avgOutputTokens := v }
    | none => a
  else if key = "provider" then { a with provider := strToLower val }
  else if key = "model" then { a with model := val }
  else a

/-- One scanner iteration of `loadConfig`; the state is the assumptions
so far and the current section name. -/
def configLineStep (st : Assumptions × String) (raw : String) : Assumptions × String :=
  let line := trimSpace raw
  if line = "" ∨ strHasPre line "#" then st
  else if strHasSuf line ":" then (st.1, dropLastChar line)
  else if st.2 ≠ "assumptions" then st
  else match splitN2Colon line with
    | [k, v] => (applyConfigKV (trimSpace k) (trimQuotes (trimSpace v)) st.1, st.2)
    | _ => st

/-- `loadConfig` from the source, over the optional file content
(`none` = the file could not be opened): start from the defaults, fold the
line loop, and report whether the file was found. -/
def loadConfig (content : Option (List String)) : Config × Bool :=
  match content with
  | none => ({ assumptions := defaultAssumptions }, false)
  | some lines =>
    ({ assumptions := (lines.foldl configLineStep (defaultAssumptions, "")).1 }, true)

/-- The section-state transition a config line performs (independent of the
accumulated assumptions). -/
def configSectionStep (current raw : String) : String :=
  let line := trimSpace raw
  if line = "" ∨ strHasPre line "#" then current
  else if strHasSuf line ":" then dropLastChar line
  else current

/-- Whether a key/value pair is a recognised assumptions assignment. -/
def kvRecognized (key val : String) : Bool :=
  if key = "requests_per_day" ∨ key = "avg_input_tokens" ∨ key = "avg_output_tokens" then
    (goAtoi val).isSome
  else decide (key = "provider" ∨ key = "model")

/-- Whether a line, read in section `current`, performs a recognised
assumptions assignment — the exact condition under which `loadConfig`
writes to the assumptions record. -/
def lineRecognized (current raw : String) : Bool :=
  let line := trimSpace raw
  if line = "" ∨ strHasPre line "#" then false
  else if strHasSuf line ":" then false
  else if current ≠ "assumptions" then false
  else match splitN2Colon line with
    | [k, v] => kvRecognized (trimSpace k) (trimQuotes (trimSpace v))
    | _ => false

/-- Whether any line of the content performs a recognised assumptions
assignment, threading the section state. -/
def anyRecognized (current : String) : List String → Bool
  | [] => false
  | raw :: rest =>
    lineRecognized current raw || anyRecognized (configSectionStep current raw) rest

/-- Decimal digits left-padded with zeros to a fixed width. -/
def padZeros (width : ℕ) (s : String) : String :=
  ⟨List.replicate (width - s.length) '0'⟩ ++ s

/-- Model of Go `%.Nf` float formatting applied to the embedded rationals:
exact decimal rounding (half away from zero) to `decimals` places. -/
def formatFixed (decimals : ℕ) (q : ℚ) : String :=
  let scaled : ℤ :=
    if q < 0 then -round (-q * (10 ^ decimals : ℚ)) else round (q * (10 ^ decimals : ℚ))
  let mag := scaled.natAbs
  let ip := mag / 10 ^ decimals
  let fp := mag % 10 ^ decimals
  (if scaled < 0 then "-" else "") ++ toString ip
    ++ (if decimals = 0 then "" else "." ++ padZeros decimals (toString fp))

/-- `formatInt` from the source: abbreviate counts at 1K and 1M with one
decimal place. -/
def formatInt (n : ℤ) : String :=
  if n ≥ 1000000 then formatFixed 1 ((n : ℚ) / 1000000) ++ "M"
  else if n ≥ 1000 then formatFixed 1 ((n : ℚ) / 1000) ++ "K"
  else toString n

/-- `safeValue` from the source. -/
def safeValue (val fallback : String) : String :=
  if trimSpace val = "" then fallback else val

/-- `firstOrDefault` from the source. -/
def firstOrDefault (list : List String) (fallback : String) : String :=
  match list with
  | [] => fallback
  | x :: _ => x

/-- `uniqueStrings` from the source: same seen-set/append loop as the merge
step, starting empty. -/
def uniqueStrings (l : List String) : List String :=
  (l.foldl mergeStep ([], [])).2

/-- Loop body of `uniqueInts`. -/
def uniqueIntsStep (st : List ℤ × List ℤ) (v : ℤ) : List ℤ × List ℤ :=
  if v ∈ st.1 then st else (v :: st.1, st.2 ++ [v])

/-- `uniqueInts` from the source. -/
def uniqueInts (l : List ℤ) : List ℤ :=
  (l.foldl uniqueIntsStep ([], [])).2

/-- `listOrPlaceholder` from the source: an em-dash for an empty side. -/
def listOrPlaceholder (values : List String) : String :=
  if values.length = 0 then "—"
  else String.intercalate ", " (uniqueStrings values)

/-- `intsOrDash` from the source. -/
def intsOrDash (values : List ℤ) : String :=
  if values.length = 0 then "—"
  else String.intercalate ", " ((uniqueInts values).map toString)

/-- `DiffSignals` from the source. -/
structure DiffSignals where
  beforeModels : List String
  afterModels : List String
  beforeMax : List ℤ
  afterMax : List ℤ
  beforeRetry : List ℤ
  afterRetry : List ℤ
deriving DecidableEq, Repr

/-- `hasAnySignals` from the source. -/
def hasAnySignals (s : DiffSignals) : Bool :=
  decide (0 < s.beforeModels.length + s.afterModels.length + s.beforeMax.length
    + s.afterMax.length + s.beforeRetry.length + s.afterRetry.length)

/-- `writeDiffSignals` from the source. -/
def writeDiffSignals (s : DiffSignals) : String :=
  "**Observed changes (diff-based heuristics):**\n"
  ++ (if 0 < s.beforeModels.length ∨ 0 < s.afterModels.length then
        "- **Models:** " ++ listOrPlaceholder s.beforeModels ++ " → "
          ++ listOrPlaceholder s.afterModels ++ "\n"
      else "")
  ++ (if 0 < s.beforeMax.length ∨ 0 < s.afterMax.length then
        "- **max_tokens:** " ++ intsOrDash s.beforeMax ++ " → "
          ++ intsOrDash s.afterMax ++ "\n"
      else "")
  ++ (if 0 < s.beforeRetry.length ∨ 0 < s.afterRetry.length then
        "- **retries:** " ++ intsOrDash s.beforeRetry ++ " → "
          ++ intsOrDash s.afterRetry ++ "\n"
      else "")
  ++ "\n"

/-- `reportInput` from the source (final iteration). -/
structure reportInput where
  configFound : Bool
  config : Assumptions
  pricing : PricingFile
  signals : DiffSignals
  baseMeasured : Option MeasuredSummary
  headMeasured : Option MeasuredSummary
deriving DecidableEq, Repr

/-- The fixed sentinel marker prepended to every report. -/
def commentMarker : String := "<!-- plarix-action -->"

/-- Data-source label of measured mode. -/
def DataSourceMeasured : String := "MEASURED"

/-- Data-source label of configured-estimate mode. -/
def DataSourceConfiguredEstimate : String := "CONFIGURED ESTIMATE"

/-- Data-source label of heuristic-only mode. -/
def DataSourceHeuristicOnly : String := "HEURISTIC ONLY"

/-- `hasMeasured := in.BaseMeasured != nil || in.HeadMeasured != nil`. -/
def hasMeasuredOf (i : reportInput) : Bool :=
  i.baseMeasured.isSome || i.headMeasured.isSome

/-- The data-source label selection of `buildReport`. -/
def dataSourceOf (i : reportInput) : String :=
  if hasMeasuredOf i then DataSourceMeasured
  else if i.configFound then DataSourceConfiguredEstimate
  else DataSourceHeuristicOnly

/-- The three mutually exclusive reporting modes. -/
inductive ReportMode where
  | measured
  | configured
  | heuristic
deriving DecidableEq, Repr

/-- The mode `buildReport` commits to: the same condition chain as its
branch structure and `dataSourceOf`. -/
def reportMode (i : reportInput) : ReportMode :=
  if hasMeasuredOf i then ReportMode.measured
  else if i.configFound then ReportMode.configured
  else ReportMode.heuristic

/-- `buildMeasuredReport` from the source.  Where the Go code ranges over
the models maps it uses an unspecified iteration order; the embedding takes
the canonical first-insertion order (`models.map Prod.fst`). -/
def buildMeasuredReport (i : reportInput) : String :=
  "### ✅ Measured Token Usage (from CI test runs)\n\n"
  ++ (match i.baseMeasured, i.headMeasured with
      | some bm, some hm =>
        "| | Calls | Input Tokens | Output Tokens | Total Cost |\n"
        ++ "|---|---:|---:|---:|---:|\n"
        ++ "| Before | " ++ toString bm.callCount ++ " | " ++ formatInt bm.totalInputTokens
          ++ " | " ++ formatInt bm.totalOutputTokens ++ " | $"
          ++ formatFixed 4 bm.totalCost ++ " |\n"
        ++ "| After | " ++ toString hm.callCount ++ " | " ++ formatInt hm.totalInputTokens
          ++ " | " ++ formatInt hm.totalOutputTokens ++ " | $"
          ++ formatFixed 4 hm.totalCost ++ " |\n\n"
        ++ (let delta := hm.totalCost - bm.totalCost
            let sign := if delta < 0 then "" else "+"
            "**Delta:** " ++ sign ++ "$" ++ formatFixed 4 delta ++ " (" ++ sign
              ++ formatFixed 1 (deltaPercentOf bm hm) ++ "%)\n\n")
        ++ (let maxCost0 := if hm.totalCost > bm.totalCost then hm.totalCost else bm.totalCost
            let maxCost := if maxCost0 = 0 then 1 else maxCost0
            "```\n"
            ++ "Before |" ++ bar bm.totalCost maxCost ++ " $"
              ++ formatFixed 4 bm.totalCost ++ "\n"
            ++ "After  |" ++ bar hm.totalCost maxCost ++ " $"
              ++ formatFixed 4 hm.totalCost ++ "\n"
            ++ "```\n\n")
        ++ (let allModels := mergeModelCounts (bm.models.map Prod.fst) (hm.models.map Prod.fst)
            if 0 < allModels.length then
              "**Models used:** " ++ String.intercalate ", " allModels ++ "\n\n"
            else "")
      | none, some hm =>
        "| Calls | Input Tokens | Output Tokens | Total Cost |\n"
        ++ "|---:|---:|---:|---:|\n"
        ++ "| " ++ toString hm.callCount ++ " | " ++ formatInt hm.totalInputTokens ++ " | "
          ++ formatInt hm.totalOutputTokens ++ " | $" ++ formatFixed 4 hm.totalCost ++ " |\n\n"
        ++ (if 0 < hm.models.length then
              "**Models used:** " ++ String.intercalate ", " (hm.models.map Prod.fst) ++ "\n\n"
            else "")
        ++ "_Note: Only HEAD measurement available. Set `PLARIX_MEASURE_BASE` to enable before/after comparison._\n\n"
      | some bm, none =>
        "| Calls | Input Tokens | Output Tokens | Total Cost |\n"
        ++ "|---:|---:|---:|---:|\n"
        ++ "| " ++ toString bm.callCount ++ " | " ++ formatInt bm.totalInputTokens ++ " | "
          ++ formatInt bm.totalOutputTokens ++ " | $" ++ formatFixed 4 bm.totalCost ++ " |\n\n"
        ++ "_Note: Only BASE measurement available. Set `PLARIX_MEASURE_HEAD` to enable before/after comparison._\n\n"
      | none, none => "")
  ++ (if hasAnySignals i.signals then "---\n\n" ++ writeDiffSignals i.signals else "")

/-- `buildConfiguredEstimateReport` from the source. -/
def buildConfiguredEstimateReport (i : reportInput) (hasSignals : Bool) : String :=
  "### 📋 Configured Estimate (from .plarix.yml)\n\n"
  ++ "**Assumptions from config:**\n"
  ++ "- Requests/day: " ++ toString i.config.requestsPerDay ++ "\n"
  ++ "- Avg input tokens: " ++ toString i.config.avgInputTokens ++ "\n"
  ++ "- Avg output tokens: " ++ toString i.config.avgOutputTokens ++ "\n"
  ++ "- Provider: " ++ i.config.provider ++ "\n"
  ++ "- Model: " ++ i.config.model ++ "\n\n"
  ++ (let beforeModel := firstOrDefault i.signals.beforeModels i.config.model
      let afterModel := firstOrDefault i.signals.afterModels i.config.model
      let beforeR := computeEstimate i.config i.pricing beforeModel
      let afterR := computeEstimate i.config i.pricing afterModel
      "**Formula:** `cost = (input_tokens × input_price + output_tokens × output_price) / 1M × requests/day × 30`\n\n"
      ++ "| | Model | Est. per request | Est. monthly |\n"
      ++ "|---|---|---:|---:|\n"
      ++ "| Before | " ++ beforeModel ++ " | $" ++ formatFixed 4 beforeR.1.perRequest
        ++ " | $" ++ formatFixed 2 beforeR.1.monthly ++ " |\n"
      ++ "| After | " ++ afterModel ++ " | $" ++ formatFixed 4 afterR.1.perRequest
        ++ " | $" ++ formatFixed 2 afterR.1.monthly ++ " |\n\n"
      ++ (let maxM0 := if afterR.1.monthly > beforeR.1.monthly then afterR.1.monthly
            else beforeR.1.monthly
          let maxM := if maxM0 = 0 then 1 else maxM0
          "```\n"
          ++ "Before |" ++ bar beforeR.1.monthly maxM ++ " $"
            ++ formatFixed 2 beforeR.1.monthly ++ "\n"
          ++ "After  |" ++ bar afterR.1.monthly maxM ++ " $"
            ++ formatFixed 2 afterR.1.monthly ++ "\n"
          ++ "```\n\n")
      ++ (if !beforeR.2 || !afterR.2 then
            "_⚠️ Pricing not found for one or more models; costs may be $0.00._\n\n"
          else ""))
  ++ "_⚠️ These are **estimates** based on configured assumptions, not actual usage._\n\n"
  ++ (if hasSignals then "---\n\n" ++ writeDiffSignals i.signals else "")

/-- `buildHeuristicOnlyReport` from the source. -/
def buildHeuristicOnlyReport (i : reportInput) (hasSignals : Bool) : String :=
  "### ⚠️ Cannot Compute Real Cost\n\n"
  ++ "**No `.plarix.yml` config and no measured token logs found.**\n\n"
  ++ "Without configuration or measurements, we cannot estimate costs reliably.\n\n"
  ++ (if hasSignals then
        "---\n\n" ++ "### 🔍 Detected PR Signals (diff-based heuristics)\n\n"
          ++ writeDiffSignals i.signals
      else "No LLM-cost-relevant changes detected in this PR.\n\n")
  ++ "---\n\n"
  ++ "### 📖 How to Enable Real Reporting\n\n"
  ++ "**Option 1: Configured Estimate** (quick setup)\n"
  ++ "Create `.plarix.yml` in your repo root:\n"
  ++ "```yaml\n"
  ++ "assumptions:\n"
  ++ "  requests_per_day: 10000\n"
  ++ "  avg_input_tokens: 800\n"
  ++ "  avg_output_tokens: 400\n"
  ++ "  provider: \"openai\"\n"
  ++ "  model: \"gpt-4o-mini\"\n"
  ++ "```\n\n"
  ++ "**Option 2: Measured Mode** (most accurate)\n"
  ++ "Instrument your tests to log token usage to JSONL files, then set:\n"
  ++ "- `PLARIX_MEASURE_BASE` = path to base branch usage log\n"
  ++ "- `PLARIX_MEASURE_HEAD` = path to PR head usage log\n\n"
  ++ "See [plarix-action README](https://github.com/aegix-ai/plarix-action) for detailed setup.\n"

/-- The fixed header `buildReport` emits after the sentinel line. -/
def reportHeader (i : reportInput) : String :=
  "## 📊 Plarix LLM Cost Analysis\n\n"
  ++ "**Definitions:**\n"
  ++ "- **Before** = base branch (merge target)\n"
  ++ "- **After** = PR head (this PR\x27s code)\n\n"
  ++ "**Data source:** `" ++ dataSourceOf i ++ "`\n\n"
  ++ "_Pricing: " ++ safeValue i.pricing.lastUpdated "unknown" ++ " · Sources: "
  ++ String.intercalate ", " i.pricing.sources ++ "_\n\n"

/-- Everything `buildReport` emits after the sentinel line and its blank
separator. -/
def buildReportBody (i : reportInput) : String :=
  reportHeader i
  ++ (if hasMeasuredOf i then buildMeasuredReport i
      else if i.configFound then buildConfiguredEstimateReport i (hasAnySignals i.signals)
      else buildHeuristicOnlyReport i (hasAnySignals i.signals))

/-- `buildReport` from the source: the sentinel marker line first, then the
header and the selected mode's section. -/
def buildReport (i : reportInput) : String :=
  commentMarker ++ "\n\n" ++ buildReportBody i

/-- The first line of a rendered text. -/
def firstLine (s : String) : String :=
  ⟨s.data.takeWhile (fun c => c != '\n')⟩

/-- Empty diff signals. -/
def emptySignals : DiffSignals :=
  { beforeModels := [], afterModels := [], beforeMax := [], afterMax := []
    beforeRetry := [], afterRetry := [] }

/-- A measured-mode input whose base summary carries one content. -/
def exInputMeasuredA : reportInput :=
  { configFound := false, config := defaultAssumptions, pricing := exCatalogOpenai
    signals := emptySignals
    baseMeasured := some { emptySummary with totalCost := 1, callCount := 1 }
    headMeasured := none }

/-- The same input with different measured content (same presence bits). -/
def exInputMeasuredB : reportInput :=
  { configFound := false, config := defaultAssumptions, pricing := exCatalogOpenai
    signals := emptySignals
    baseMeasured := some { emptySummary with totalCost := 999, callCount := 7 }
    headMeasured := none }

/-- An input with a found config, no measured data and no signals. -/
def exInputConfigured : reportInput :=
  { configFound := true, config := defaultAssumptions, pricing := exCatalogOpenai
    signals := emptySignals, baseMeasured := none, headMeasured := none }

theorem priceForLoop_eq_find (provider model : String) (l : List ModelPrice) :
    priceForLoop provider model l
      = l.find? (fun m => eqFold m.provider provider && eqFold m.name model) := by
  induction l with
  | nil => rfl
  | cons m rest ih =>
    by_cases h : (eqFold m.provider provider && eqFold m.name model) = true
    · simp [priceForLoop, List.find?, h]
    · simp only [Bool.not_eq_true] at h
      simp [priceForLoop, List.find?, h, ih]

/-- C1 counterexample: against the authoritative (final-iteration) resolver,
resolving ("openai", "not-a-real-model") on a catalog containing only
openai entries returns the zero-priced placeholder with `exactMatch = false`,
not the catalog's first openai entry: the claimed same-provider fallback does
not exist in the final iteration. -/
theorem priceFor_no_provider_fallback_cex :
    priceFor exCatalogOpenai "openai" "not-a-real-model"
      = ({ provider := "openai", name := "not-a-real-model"
           inputPerMillion := 0, outputPerMillion := 0 }, false)
    ∧ exCatalogOpenai.models.head? = some exGpt4o
    ∧ ({ provider := "openai", name := "not-a-real-model"
         inputPerMillion := 0, outputPerMillion := 0 } : ModelPrice) ≠ exGpt4o := by
  refine ⟨?_, rfl, ?_⟩
  · rfl
  · intro h
    simp [exGpt4o] at h

/-- C1 (amended): the final-iteration resolver performs only the exact
case-insensitive (provider, model) lookup — it returns the first exactly
matching entry with `exactMatch = true`, and otherwise a zero-priced
placeholder carrying the lower-cased requested provider and the requested
model with `exactMatch = false`, applying no same-provider or first-entry
fallback. -/
theorem priceFor_exact_or_placeholder (pricing : PricingFile) (provider model : String) :
    priceFor pricing provider model
      = match pricing.models.find?
            (fun m => eqFold m.provider (strToLower provider) && eqFold m.name model) with
        | some m => (m, true)
        | none =>
          ({ provider := strToLower provider, name := model
             inputPerMillion := 0, outputPerMillion := 0 }, false) := by
  unfold priceFor
  simp only [priceForLoop_eq_find]

theorem usageFold_skip (pricing : PricingFile) (lines : List UsageLine) :
    ∀ s : MeasuredSummary,
      lines.foldl (lineStep pricing) s
        = (lines.filter isRecordLine).foldl (lineStep pricing) s := by
  induction lines with
  | nil => intro s; rfl
  | cons l rest ih =>
    intro s
    cases l with
    | blank => simpa [isRecordLine, lineStep] using ih s
    | malformed => simpa [isRecordLine, lineStep] using ih s
    | record u => simpa [isRecordLine, lineStep] using ih (aggregateStep pricing s u)

theorem usageFold_callCount (pricing : PricingFile) (lines : List UsageLine) :
    ∀ s : MeasuredSummary,
      (lines.foldl (lineStep pricing) s).callCount
        = s.callCount + ((lines.filter isRecordLine).length : ℤ) := by
  induction lines with
  | nil => intro s; simp
  | cons l rest ih =>
    intro s
    cases l with
    | blank => simpa [isRecordLine, lineStep] using ih s
    | malformed => simpa [isRecordLine, lineStep] using ih s
    | record u =>
      have h2 : (aggregateStep pricing s u).callCount = s.callCount + 1 := rfl
      calc (List.foldl (lineStep pricing) s (UsageLine.record u :: rest)).callCount
          = (List.foldl (lineStep pricing) (aggregateStep pricing s u) rest).callCount := rfl
        _ = (aggregateStep pricing s u).callCount
              + ((rest.filter isRecordLine).length : ℤ) := ih _
        _ = s.callCount + 1 + ((rest.filter isRecordLine).length : ℤ) := by rw [h2]
        _ = s.callCount + (((UsageLine.record u :: rest).filter isRecordLine).length : ℤ) := by
            simp [isRecordLine]
            ring

/-- C3: aggregation is absent exactly when the stream holds no well-formed,
non-blank line; otherwise the summary's `callCount` equals the number of
such lines; and blank/malformed lines contribute nothing (the result equals
the result over the record lines alone). -/
theorem loadMeasuredUsage_records (pricing : PricingFile) (lines : List UsageLine) :
    loadMeasuredUsage pricing lines
        = loadMeasuredUsage pricing (lines.filter isRecordLine)
    ∧ (loadMeasuredUsage pricing lines = none
        ↔ (lines.filter isRecordLine).length = 0)
    ∧ ∀ s : MeasuredSummary, loadMeasuredUsage pricing lines = some s →
        s.callCount = ((lines.filter isRecordLine).length : ℤ) := by
  have hcc : (lines.foldl (lineStep pricing) emptySummary).callCount
      = ((lines.filter isRecordLine).length : ℤ) := by
    have := usageFold_callCount pricing lines emptySummary
    simpa [emptySummary] using this
  refine ⟨?_, ?_, ?_⟩
  · simp only [loadMeasuredUsage]
    rw [usageFold_skip pricing lines emptySummary]
  · simp only [loadMeasuredUsage]
    rw [hcc]
    by_cases h : (lines.filter isRecordLine).length = 0
    · simp [h]
    · simp [h, Nat.cast_eq_zero]
  · intro s hs
    simp only [loadMeasuredUsage] at hs
    rw [hcc] at hs
    by_cases h : ((lines.filter isRecordLine).length : ℤ) = 0
    · rw [if_pos h] at hs
      cases hs
    · rw [if_neg h] at hs
      rw [← Option.some.inj hs, hcc]

/-- Witness for C3 at concrete streams. -/
theorem loadMeasuredUsage_records_witness :
    loadMeasuredUsage exCatalogOpenai [UsageLine.blank, UsageLine.malformed] = none := by
  exact (loadMeasuredUsage_records exCatalogOpenai
    [UsageLine.blank, UsageLine.malformed]).2.1.mpr rfl

theorem lineStep_obs (pricing : PricingFile) {l l' : UsageLine} (h : lineObs l l')
    (s : MeasuredSummary) : lineStep pricing s l = lineStep pricing s l' := by
  cases l <;> cases l' <;> simp [lineObs] at h <;> try rfl
  obtain ⟨h1, h2, h3, h4⟩ := h
  simp [lineStep, aggregateStep, h1, h2, h3, h4]

/-- C9: aggregation never reads `cachedInputTokens` or `timestamp` — two
streams that agree line-by-line on every other field produce identical
summaries over any catalog. -/
theorem loadMeasuredUsage_cached_noninterference (pricing : PricingFile)
    (l₁ l₂ : List UsageLine) (h : List.Forall₂ lineObs l₁ l₂) :
    loadMeasuredUsage pricing l₁ = loadMeasuredUsage pricing l₂ := by
  have hfold : ∀ s : MeasuredSummary,
      l₁.foldl (lineStep pricing) s = l₂.foldl (lineStep pricing) s := by
    induction h with
    | nil => intro s; rfl
    | cons hl hrest ih =>
      intro s
      simp only [List.foldl_cons]
      rw [lineStep_obs pricing hl s]
      exact ih _
  simp only [loadMeasuredUsage, hfold emptySummary]

/-- Witness for C9: two one-line streams differing only in
`cachedInputTokens` and `timestamp` aggregate identically. -/
theorem loadMeasuredUsage_cached_noninterference_witness :
    loadMeasuredUsage exCatalogOpenai
        [UsageLine.record
          { provider := "openai", model := "gpt-4o", inputTokens := 100,
            outputTokens := 50, cachedInputTokens := 10,
            timestamp := "2025-01-01T00:00:00Z" }]
      = loadMeasuredUsage exCatalogOpenai
        [UsageLine.record
          { provider := "openai", model := "gpt-4o", inputTokens := 100,
            outputTokens := 50, cachedInputTokens := 99999,
            timestamp := "" }] :=
  loadMeasuredUsage_cached_noninterference exCatalogOpenai _ _
    (List.Forall₂.cons ⟨rfl, rfl, rfl, rfl⟩ List.Forall₂.nil)

/-- C4: the estimator computes exactly
`perRequest = (avgIn * inPrice + avgOut * outPrice) / 1e6` and
`monthly = perRequest * requestsPerDay * 30`, with no rounding in between;
at the rates 0.15/0.60 with assumptions {10000, 800, 400} this gives
perRequest = 0.00036 and monthly = 108. -/
theorem computeEstimate_formula :
    (∀ (a : Assumptions) (pricing : PricingFile) (model : String),
      (computeEstimate a pricing model).1.perRequest
          = ((a.avgInputTokens : ℚ) * (priceFor pricing a.provider model).1.inputPerMillion
              + (a.avgOutputTokens : ℚ)
                * (priceFor pricing a.provider model).1.outputPerMillion) / 1000000
        ∧ (computeEstimate a pricing model).1.monthly
          = (computeEstimate a pricing model).1.perRequest * (a.requestsPerDay : ℚ) * 30)
    ∧ (computeEstimate exAssumptions exCatalogOpenai "gpt-4o-mini").1.perRequest
        = 36 / 100000
    ∧ (computeEstimate exAssumptions exCatalogOpenai "gpt-4o-mini").1.monthly = 108 := by
  have hp : priceFor exCatalogOpenai "openai" "gpt-4o-mini" = (exGpt4oMini, true) := rfl
  have hper : (computeEstimate exAssumptions exCatalogOpenai "gpt-4o-mini").1.perRequest
      = (((800 : ℤ) : ℚ) * (15 / 100) + ((400 : ℤ) : ℚ) * (60 / 100)) / 1000000 := by
    simp only [computeEstimate, exAssumptions, hp, exGpt4oMini]
  refine ⟨fun a pricing model => ⟨rfl, rfl⟩, ?_, ?_⟩
  · rw [hper]
    norm_num
  · have hm : (computeEstimate exAssumptions exCatalogOpenai "gpt-4o-mini").1.monthly
        = (computeEstimate exAssumptions exCatalogOpenai "gpt-4o-mini").1.perRequest
            * ((10000 : ℤ) : ℚ) * 30 := rfl
    rw [hm, hper]
    norm_num

/-- C5: with both summaries present, a zero before-cost reports a
delta-percent of exactly 0 (the division is never taken), and a positive
before-cost reports `(after − before) / before × 100`. -/
theorem deltaPercentOf_guarded (base head : MeasuredSummary) :
    (base.totalCost = 0 → deltaPercentOf base head = 0)
    ∧ (0 < base.totalCost →
        deltaPercentOf base head
          = (head.totalCost - base.totalCost) / base.totalCost * 100) := by
  constructor
  · intro h
    simp [deltaPercentOf, h]
  · intro h
    simp [deltaPercentOf, h]

/-- Witness for C5 at concrete summaries (before-cost zero and nonzero). -/
theorem deltaPercentOf_guarded_witness :
    deltaPercentOf { emptySummary with totalCost := 0 }
        { emptySummary with totalCost := 5 } = 0
    ∧ deltaPercentOf { emptySummary with totalCost := 2 }
        { emptySummary with totalCost := 5 } = (5 - 2) / 2 * 100 := by
  constructor
  · exact (deltaPercentOf_guarded _ _).1 rfl
  · exact (deltaPercentOf_guarded { emptySummary with totalCost := 2 }
      { emptySummary with totalCost := 5 }).2 (by norm_num)

theorem goTrunc_eq_floor {q : ℚ} (h : 0 ≤ q) : goTrunc q = ⌊q⌋ := by
  unfold goTrunc
  rw [Int.tdiv_eq_ediv (Rat.num_nonneg.mpr h) (by exact_mod_cast Nat.zero_le q.den)]
  exact (Rat.floor_def).symm

/-- C6 counterexample: at value 2 against scale maximum 3 the code fills
⌊44/3⌋ = 14 units, while rounding as the claim states would give 15 (inside
the clamp range, so neither exception applies). -/
theorem barFilled_not_round_cex :
    barFilled 2 3 = 14
    ∧ round ((2 : ℚ) / 3 * 22) = 15
    ∧ (1 : ℤ) ≤ 15 ∧ (15 : ℤ) ≤ 22
    ∧ (14 : ℤ) ≠ 15 := by
  refine ⟨?_, ?_, by norm_num, by norm_num, by norm_num⟩
  · have h : goTrunc ((2 : ℚ) / 3 * 22) = 14 := by
      rw [goTrunc_eq_floor (by norm_num)]
      rw [show (2 : ℚ) / 3 * 22 = 44 / 3 by norm_num]
      rw [Int.floor_eq_iff]
      norm_num
    simp [barFilled, h]
  · rw [show (2 : ℚ) / 3 * 22 = 44 / 3 by norm_num]
    rw [round_eq]
    rw [show (44 : ℚ) / 3 + 1 / 2 = 91 / 6 by norm_num]
    rw [Int.floor_eq_iff]
    norm_num

/-- C6 (amended): the bar is always 22 characters wide, and for a
non-negative value against a positive scale maximum the filled-unit count
is the *truncation* (floor) of `value / max × 22`, floored at 1 when the
value is positive and capped at 22 (not the nearest-integer rounding the
claim states). -/
theorem barFilled_floor_clamped (value maxv : ℚ) (h0 : 0 ≤ value) (hm : 0 < maxv) :
    (bar value maxv).length = 22
    ∧ barFilled value maxv
        = if 0 < value then min 22 (max 1 ⌊value / maxv * 22⌋) else 0 := by
  have hq : 0 ≤ value / maxv * 22 := by positivity
  have hfl : 0 ≤ ⌊value / maxv * 22⌋ := Int.floor_nonneg.mpr hq
  have ht : goTrunc (value / maxv * 22) = ⌊value / maxv * 22⌋ := goTrunc_eq_floor hq
  have hchar : barFilled value maxv
      = if 0 < value then min 22 (max 1 ⌊value / maxv * 22⌋) else 0 := by
    by_cases hv : 0 < value
    · simp only [barFilled, ht, hv, if_pos, and_true]
      split_ifs <;> omega
    · have hz : value = 0 := le_antisymm (not_lt.mp hv) h0
      have hq0 : value / maxv * 22 = 0 := by rw [hz]; ring
      simp only [barFilled, ht, hq0, hv, if_neg, Int.floor_zero]
      have hg0 : goTrunc 0 = 0 := rfl
      rw [hg0]
      norm_num
  have hb0 : 0 ≤ barFilled value maxv := by
    rw [hchar]; split_ifs <;> omega
  have hb22 : barFilled value maxv ≤ 22 := by
    rw [hchar]; split_ifs <;> omega
  refine ⟨?_, hchar⟩
  show (List.replicate (barFilled value maxv).toNat '█'
    ++ List.replicate ((22 - barFilled value maxv)).toNat '·').length = 22
  rw [List.length_append, List.length_replicate, List.length_replicate]
  omega

theorem mergeFold_acc (xs : List String) :
    ∀ (seen acc : List String),
      (xs.foldl mergeStep (seen, acc)).2 = acc ++ (xs.foldl mergeStep (seen, [])).2 := by
  induction xs with
  | nil => intro seen acc; simp
  | cons x rest ih =>
    intro seen acc
    by_cases h : x ∈ seen
    · simp only [List.foldl_cons, mergeStep, if_pos h]
      exact ih seen acc
    · simp only [List.foldl_cons, mergeStep, if_neg h, List.nil_append]
      rw [ih (x :: seen) (acc ++ [x]), ih (x :: seen) [x]]
      simp

theorem mergeFold_seen (xs : List String) :
    ∀ (seen acc : List String) (y : String),
      (y ∈ (xs.foldl mergeStep (seen, acc)).1 ↔ y ∈ xs ∨ y ∈ seen) := by
  induction xs with
  | nil => intro seen acc y; simp
  | cons x rest ih =>
    intro seen acc y
    by_cases h : x ∈ seen
    · simp only [List.foldl_cons, mergeStep, if_pos h]
      rw [ih seen acc y]
      constructor
      · rintro (hy | hy)
        · exact Or.inl (List.mem_cons_of_mem x hy)
        · exact Or.inr hy
      · rintro (hy | hy)
        · rcases List.mem_cons.mp hy with rfl | hy
          · exact Or.inr h
          · exact Or.inl hy
        · exact Or.inr hy
    · simp only [List.foldl_cons, mergeStep, if_neg h]
      rw [ih (x :: seen) (acc ++ [x]) y]
      simp only [List.mem_cons]
      tauto

theorem mergeFold_mem (xs : List String) :
    ∀ (seen acc : List String) (y : String),
      (y ∈ (xs.foldl mergeStep (seen, acc)).2 ↔ y ∈ acc ∨ (y ∈ xs ∧ y ∉ seen)) := by
  induction xs with
  | nil => intro seen acc y; simp
  | cons x rest ih =>
    intro seen acc y
    by_cases h : x ∈ seen
    · simp only [List.foldl_cons, mergeStep, if_pos h]
      rw [ih seen acc y]
      simp only [List.mem_cons]
      constructor
      · rintro (hy | ⟨hy, hs⟩)
        · exact Or.inl hy
        · exact Or.inr ⟨Or.inr hy, hs⟩
      · rintro (hy | ⟨hy | hy, hs⟩)
        · exact Or.inl hy
        · subst hy; exact absurd h hs
        · exact Or.inr ⟨hy, hs⟩
    · simp only [List.foldl_cons, mergeStep, if_neg h]
      rw [ih (x :: seen) (acc ++ [x]) y]
      by_cases hyx : y = x
      · subst hyx
        simp [h]
      · simp only [List.mem_append, List.mem_singleton, List.mem_cons,
          List.not_mem_nil, or_false]
        tauto

theorem mergeFold_nodup (xs : List String) :
    ∀ (seen acc : List String), acc.Nodup → (∀ y ∈ acc, y ∈ seen) →
      ((xs.foldl mergeStep (seen, acc)).2.Nodup
        ∧ ∀ y ∈ (xs.foldl mergeStep (seen, acc)).2, y ∈ (xs.foldl mergeStep (seen, acc)).1) := by
  induction xs with
  | nil =>
    intro seen acc hnd hsub
    exact ⟨hnd, hsub⟩
  | cons x rest ih =>
    intro seen acc hnd hsub
    by_cases h : x ∈ seen
    · simp only [List.foldl_cons, mergeStep, if_pos h]
      exact ih seen acc hnd hsub
    · simp only [List.foldl_cons, mergeStep, if_neg h]
      have hxacc : x ∉ acc := fun hx => h (hsub x hx)
      refine ih (x :: seen) (acc ++ [x]) ?_ ?_
      · simp [List.nodup_append, hnd, hxacc]
      · intro y hy
        rcases List.mem_append.mp hy with hy | hy
        · exact List.mem_cons_of_mem x (hsub y hy)
        · simp only [List.mem_singleton] at hy
          subst hy
          exact List.mem_cons_self _ _

/-- C7 (amended): for any iteration orders of the two sides' model maps,
the merged list has no duplicates, contains exactly the union of the two
sides' models, and splits as all before-side models followed only by models
that appear solely on the after side; the order inside each part follows the
map iteration order, which Go does not tie to first-seen order. -/
theorem mergeModelCounts_union_split (a b : List String) :
    (mergeModelCounts a b).Nodup
    ∧ (∀ x, x ∈ mergeModelCounts a b ↔ x ∈ a ∨ x ∈ b)
    ∧ ∃ ra rb, mergeModelCounts a b = ra ++ rb
        ∧ (∀ x ∈ ra, x ∈ a) ∧ (∀ y ∈ rb, y ∈ b ∧ y ∉ a) := by
  have hst : a.foldl mergeStep ([], [])
      = ((a.foldl mergeStep ([], [])).1, (a.foldl mergeStep ([], [])).2) := rfl
  have hsplit : mergeModelCounts a b
      = (a.foldl mergeStep ([], [])).2
          ++ (b.foldl mergeStep ((a.foldl mergeStep ([], [])).1, [])).2 := by
    unfold mergeModelCounts
    rw [hst, mergeFold_acc b]
  refine ⟨?_, ?_, ?_⟩
  · have h1 := mergeFold_nodup a [] [] List.nodup_nil (by simp)
    have h2 := mergeFold_nodup b (a.foldl mergeStep ([], [])).1
        (a.foldl mergeStep ([], [])).2 h1.1 h1.2
    unfold mergeModelCounts
    rw [hst]
    exact h2.1
  · intro x
    unfold mergeModelCounts
    rw [hst, mergeFold_mem b]
    rw [mergeFold_mem a, mergeFold_seen a]
    simp only [List.not_mem_nil, false_or, or_false]
    tauto
  · refine ⟨(a.foldl mergeStep ([], [])).2,
      (b.foldl mergeStep ((a.foldl mergeStep ([], [])).1, [])).2, hsplit, ?_, ?_⟩
    · intro x hx
      have := (mergeFold_mem a [] [] x).mp hx
      simpa using this
    · intro y hy
      have := (mergeFold_mem b (a.foldl mergeStep ([], [])).1 [] y).mp hy
      simp only [List.not_mem_nil, false_or] at this
      refine ⟨this.1, fun hya => this.2 ?_⟩
      rw [mergeFold_seen a]
      simp [hya]

/-- Witness for C7's amended statement at concrete iteration orders. -/
theorem mergeModelCounts_union_split_witness :
    (mergeModelCounts ["gpt-4o", "gpt-4o-mini"] ["claude-3-opus"]).Nodup
    ∧ ("claude-3-opus" ∈ mergeModelCounts ["gpt-4o", "gpt-4o-mini"] ["claude-3-opus"]
        ↔ "claude-3-opus" ∈ (["gpt-4o", "gpt-4o-mini"] : List String)
          ∨ "claude-3-opus" ∈ (["claude-3-opus"] : List String)) :=
  ⟨(mergeModelCounts_union_split ["gpt-4o", "gpt-4o-mini"] ["claude-3-opus"]).1,
    (mergeModelCounts_union_split ["gpt-4o", "gpt-4o-mini"] ["claude-3-opus"]).2.1
      "claude-3-opus"⟩

/-- C7 counterexample: the claim requires the rendered union to follow
first-seen order, but Go map iteration order is unspecified.  For the
before-side summary whose models were first seen as
[gpt-4o-mini, gpt-4o], the reversed sequence [gpt-4o, gpt-4o-mini] is a
valid iteration order, and merging under it renders
[gpt-4o, gpt-4o-mini] — not the first-seen union [gpt-4o-mini, gpt-4o]. -/
theorem mergeModelCounts_first_seen_cex :
    (loadMeasuredUsage exCatalogOpenai exBaseLines).map MeasuredSummary.models
        = some [("gpt-4o-mini", 1), ("gpt-4o", 1)]
    ∧ (loadMeasuredUsage exCatalogOpenai exHeadLines).map MeasuredSummary.models
        = some [("gpt-4o", 1)]
    ∧ validMapIterOrder [("gpt-4o-mini", 1), ("gpt-4o", 1)] ["gpt-4o", "gpt-4o-mini"]
    ∧ validMapIterOrder [("gpt-4o", 1)] ["gpt-4o"]
    ∧ mergeModelCounts ["gpt-4o", "gpt-4o-mini"] ["gpt-4o"]
        = ["gpt-4o", "gpt-4o-mini"]
    ∧ mergeModelCounts ["gpt-4o-mini", "gpt-4o"] ["gpt-4o"]
        = ["gpt-4o-mini", "gpt-4o"]
    ∧ (["gpt-4o", "gpt-4o-mini"] : List String) ≠ ["gpt-4o-mini", "gpt-4o"] := by
  refine ⟨rfl, rfl, ?_, ?_, rfl, rfl, by decide⟩
  · exact List.Perm.swap "gpt-4o-mini" "gpt-4o" []
  · exact List.Perm.refl _

theorem configLineStep_snd (st : Assumptions × String) (raw : String) :
    (configLineStep st raw).2 = configSectionStep st.2 raw := by
  obtain ⟨a, cur⟩ := st
  simp only [configLineStep, configSectionStep]
  split_ifs <;> try rfl
  split <;> rfl

theorem applyConfigKV_unrecognized {key val : String}
    (h : kvRecognized key val = false) (a : Assumptions) :
    applyConfigKV key val a = a := by
  unfold kvRecognized at h
  unfold applyConfigKV
  by_cases h1 : key = "requests_per_day"
  · rw [if_pos (Or.inl h1)] at h
    rw [if_pos h1]
    cases hg : goAtoi val with
    | none => rfl
    | some v => rw [hg] at h; simp at h
  · by_cases h2 : key = "avg_input_tokens"
    · rw [if_pos (Or.inr (Or.inl h2))] at h
      rw [if_neg h1, if_pos h2]
      cases hg : goAtoi val with
      | none => rfl
      | some v => rw [hg] at h; simp at h
    · by_cases h3 : key = "avg_output_tokens"
      · rw [if_pos (Or.inr (Or.inr h3))] at h
        rw [if_neg h1, if_neg h2, if_pos h3]
        cases hg : goAtoi val with
        | none => rfl
        | some v => rw [hg] at h; simp at h
      · rw [if_neg (by tauto)] at h
        simp only [decide_eq_false_iff_not, not_or] at h
        rw [if_neg h1, if_neg h2, if_neg h3, if_neg h.1, if_neg h.2]

theorem configLineStep_unrecognized {cur raw : String}
    (h : lineRecognized cur raw = false) (a : Assumptions) :
    (configLineStep (a, cur) raw).1 = a := by
  unfold lineRecognized at h
  unfold configLineStep
  by_cases h1 : trimSpace raw = "" ∨ strHasPre (trimSpace raw) "#"
  · rw [if_pos h1]
  · rw [if_neg h1] at h ⊢
    by_cases h2 : strHasSuf (trimSpace raw) ":"
    · rw [if_pos h2]
    · rw [if_neg h2] at h ⊢
      by_cases h3 : cur ≠ "assumptions"
      · rw [if_pos h3]
      · rw [if_neg h3] at h ⊢
        cases hm : splitN2Colon (trimSpace raw) with
        | nil => rfl
        | cons k rest =>
          cases rest with
          | nil => rfl
          | cons v rest2 =>
            cases rest2 with
            | nil =>
              rw [hm] at h
              exact applyConfigKV_unrecognized h a
            | cons w rest3 => rfl

theorem configFold_unrecognized (lines : List String) :
    ∀ (cur : String) (a : Assumptions), anyRecognized cur lines = false →
      (lines.foldl configLineStep (a, cur)).1 = a := by
  induction lines with
  | nil => intro cur a _; rfl
  | cons raw rest ih =>
    intro cur a h
    simp only [anyRecognized, Bool.or_eq_false_iff] at h
    rw [List.foldl_cons]
    have hstep : configLineStep (a, cur) raw = (a, configSectionStep cur raw) := by
      have hfst := configLineStep_unrecognized h.1 a
      have hsnd := configLineStep_snd (a, cur) raw
      exact Prod.ext hfst hsnd
    rw [hstep]
    exact ih _ a h.2

/-- C8: for every combination of available inputs — including the
completely empty one — the composed report's first line is the fixed
sentinel marker and the report is non-blank (and the composer is a total
function, so it never fails). -/
theorem buildReport_sentinel (i : reportInput) :
    firstLine (buildReport i) = commentMarker ∧ buildReport i ≠ "" := by
  have hdata : (buildReport i).data
      = commentMarker.data ++ '\n' :: '\n' :: (buildReportBody i).data := rfl
  constructor
  · show (⟨(buildReport i).data.takeWhile (fun c => c != '\n')⟩ : String) = commentMarker
    rw [hdata]
    rfl
  · intro h
    have hd : commentMarker.data ++ '\n' :: '\n' :: (buildReportBody i).data
        = ([] : List Char) := by
      rw [← hdata, h]
    exact (List.cons_ne_nil _ _) ((List.append_eq_nil.mp hd).2)

/-- C2: the composer's mode is decided by presence alone, in strict
priority measured > configured-estimate > heuristic-only: measured iff some
measured summary is present, configured iff none is and a config was found,
heuristic otherwise; the printed data-source label and the rendered section
follow that mode; and any two inputs agreeing on the three presence bits
get the same mode regardless of any content. -/
theorem reportMode_presence_only :
    (∀ i : reportInput,
      (reportMode i = ReportMode.measured
          ↔ (i.baseMeasured.isSome = true ∨ i.headMeasured.isSome = true))
      ∧ (reportMode i = ReportMode.configured
          ↔ (¬(i.baseMeasured.isSome = true ∨ i.headMeasured.isSome = true)
              ∧ i.configFound = true))
      ∧ (reportMode i = ReportMode.heuristic
          ↔ (¬(i.baseMeasured.isSome = true ∨ i.headMeasured.isSome = true)
              ∧ i.configFound = false))
      ∧ dataSourceOf i
          = (match reportMode i with
             | ReportMode.measured => DataSourceMeasured
             | ReportMode.configured => DataSourceConfiguredEstimate
             | ReportMode.heuristic => DataSourceHeuristicOnly)
      ∧ buildReportBody i
          = reportHeader i
            ++ (match reportMode i with
                | ReportMode.measured => buildMeasuredReport i
                | ReportMode.configured =>
                  buildConfiguredEstimateReport i (hasAnySignals i.signals)
                | ReportMode.heuristic =>
                  buildHeuristicOnlyReport i (hasAnySignals i.signals)))
    ∧ (∀ i j : reportInput, i.baseMeasured.isSome = j.baseMeasured.isSome →
        i.headMeasured.isSome = j.headMeasured.isSome →
        i.configFound = j.configFound → reportMode i = reportMode j) := by
  constructor
  · intro i
    cases hb : i.baseMeasured.isSome <;> cases hh : i.headMeasured.isSome <;>
      cases hc : i.configFound <;>
      simp [reportMode, hasMeasuredOf, dataSourceOf, buildReportBody, hb, hh, hc]
  · intro i j h1 h2 h3
    simp [reportMode, hasMeasuredOf, h1, h2, h3]

/-- Witness for C2: two inputs with equal presence bits but different
measured content select the same mode. -/
theorem reportMode_presence_only_witness :
    reportMode exInputMeasuredA = reportMode exInputMeasuredB :=
  reportMode_presence_only.2 exInputMeasuredA exInputMeasuredB rfl rfl rfl

/-- C10: a configuration source that opens always reports found = true
whatever its content; content containing no recognised assumptions
assignment leaves the defaults {10000, 800, 400, openai, gpt-4o-mini}
exactly; and with both measured summaries absent, found = true alone is
what moves the report from heuristic-only to configured-estimate mode. -/
theorem loadConfig_exists_defaults :
    (∀ lines : List String, (loadConfig (some lines)).2 = true)
    ∧ (∀ lines : List String, anyRecognized "" lines = false →
        (loadConfig (some lines)).1.assumptions = defaultAssumptions)
    ∧ (∀ i : reportInput, i.baseMeasured = none → i.headMeasured = none →
        i.configFound = true → reportMode i = ReportMode.configured) := by
  refine ⟨fun lines => rfl, fun lines h => ?_, fun i hb hh hc => ?_⟩
  · exact configFold_unrecognized lines "" defaultAssumptions h
  · simp [reportMode, hasMeasuredOf, hb, hh, hc]

/-- Witness for C10: a file of only comments, blanks and an unrelated
section yields found = true with the untouched defaults, and a config-only
input is reported in configured-estimate mode. -/
theorem loadConfig_exists_defaults_witness :
    (loadConfig (some ["# comment", "", "unrelated:", "  foo: 1"])).2 = true
    ∧ (loadConfig (some ["# comment", "", "unrelated:", "  foo: 1"])).1.assumptions
        = defaultAssumptions
    ∧ reportMode exInputConfigured = ReportMode.configured :=
  ⟨loadConfig_exists_defaults.1 _,
   loadConfig_exists_defaults.2.1 _ (by decide),
   loadConfig_exists_defaults.2.2 exInputConfigured rfl rfl rfl⟩

/-- Witness for C6's amended statement at value 2, scale maximum 3. -/
theorem barFilled_floor_clamped_witness :
    (bar 2 3).length = 22
    ∧ barFilled 2 3 = if 0 < (2 : ℚ) then min 22 (max 1 ⌊(2 : ℚ) / 3 * 22⌋) else 0 :=
  barFilled_floor_clamped 2 3 (by norm_num) (by norm_num)
